import Mathlib

/-!
Verification development for the one-piece-viewer repository.

The definitions below are a shallow embedding of the core subsystems:
the IndexedDB-backed metadata store (src/lib/db.ts), the directory
scanner and description sync helpers (src/lib/file-system.ts and the
alternate copy in src/unnamed/part_003), the player page logic
(src/app/player/page.tsx), the video-player flush handlers
(src/components/video-player.tsx), and the discovery flow of the home
page (src/unnamed/part_000).

Object stores are modelled as association lists in insertion order; an
IndexedDB put with a keyPath is `putByKey` with the corresponding key
projection, and a get is `getByKey`.  JavaScript numbers that only ever
hold integral timestamps, counts and playback positions are modelled
as Nat.  Host capabilities (directory and file handles) are
replaced by explicit data: a directory is the list of entries an
enumeration yields, and the success or failure of permission checks and
file opens is an explicit input.
-/

/-- Insert or replace the record `r` in store `s`, keyed by `key`.
Mirrors an IndexedDB `put` on a store whose keyPath is the field read by
`key`: the first record with the same key is replaced, otherwise `r` is
appended. -/
def putByKey (key : α → String) (r : α) : List α → List α
  | [] => [r]
  | x :: xs => if key x = key r then r :: xs else x :: putByKey key r xs

/-- Look up the record stored under key `k`.  Mirrors an IndexedDB `get`. -/
def getByKey (key : α → String) (k : String) (s : List α) : Option α :=
  s.find? fun x => key x == k

/-- A store is well formed when no two records share a key; IndexedDB
guarantees this because the key is derived from the record by keyPath. -/
def WFStore (key : α → String) (s : List α) : Prop :=
  s.Pairwise fun x y => key x ≠ key y

/-- ArcMetadata, from src/lib/db.ts. -/
structure ArcMetadata where
  id : String
  name : String
  displayName : String
  coverImage : Option String
  description : Option String
  order : Nat
  createdAt : Nat
deriving Repr, DecidableEq

/-- EpisodeMetadata, from src/lib/db.ts.  The `episodeNumber` field is
absent from the db.ts interface but is written by the discovery flow in
src/unnamed/part_000 and read by the arc page, so it is kept here. -/
structure EpisodeMetadata where
  id : String
  arcId : String
  fileName : String
  displayName : String
  duration : Nat
  thumbnail : Option String
  order : Nat
  episodeNumber : Option Nat
  createdAt : Nat
deriving Repr, DecidableEq

/-- PlaybackProgress, from src/lib/db.ts. -/
structure PlaybackProgress where
  id : String
  episodeId : String
  arcId : String
  currentTime : Nat
  duration : Nat
  lastWatched : Nat
deriving Repr, DecidableEq

/-- The status values of FileHandleStatus in src/lib/db.ts. -/
inductive HandleState where
  | ok
  | stale
  | missing
deriving Repr, DecidableEq

/-- FileHandleStatus, from src/lib/db.ts. -/
structure FileHandleStatus where
  id : String
  status : HandleState
  lastVerified : Nat
deriving Repr, DecidableEq

/-- The source values of an episode description record. -/
inductive DescSource where
  | disk
  | local
deriving Repr, DecidableEq

/-- EpisodeDescription, as declared in src/app/player/page.tsx imports
and described in the data model section of the specification. -/
structure EpisodeDescription where
  id : String
  episodeId : String
  arcId : String
  fileName : String
  text : String
  source : DescSource
  lastModified : Nat
  lastUpdated : Nat
deriving Repr, DecidableEq

/-- savePlaybackProgress, from src/lib/db.ts.  The playback object store
is created with keyPath "episodeId" (db.ts line 99), so a put keys the
record by its episodeId field. -/
def savePlaybackProgress (s : List PlaybackProgress) (p : PlaybackProgress) :
    List PlaybackProgress :=
  putByKey (fun r => r.episodeId) p s

/-- getPlaybackProgress, from src/lib/db.ts: a get on the playback store,
whose keyPath is "episodeId". -/
def getPlaybackProgress (s : List PlaybackProgress) (stableId : String) :
    Option PlaybackProgress :=
  getByKey (fun r => r.episodeId) stableId s

/-- saveArc, from src/lib/db.ts (arcs store, keyPath "id"). -/
def saveArc (s : List ArcMetadata) (a : ArcMetadata) : List ArcMetadata :=
  putByKey (fun r => r.id) a s

/-- getArc, from src/lib/db.ts. -/
def getArc (s : List ArcMetadata) (id : String) : Option ArcMetadata :=
  getByKey (fun r => r.id) id s

/-- saveEpisode, from src/lib/db.ts (episodes store, keyPath "id"). -/
def saveEpisode (s : List EpisodeMetadata) (e : EpisodeMetadata) :
    List EpisodeMetadata :=
  putByKey (fun r => r.id) e s

/-- getEpisodes, from src/lib/db.ts: read of the by-arc index.  The index
enumeration order is abstracted to the record list order. -/
def getEpisodes (s : List EpisodeMetadata) (arcId : String) :
    List EpisodeMetadata :=
  s.filter fun e => e.arcId == arcId

/-- saveHandleStatus, from src/lib/db.ts: writes an id, status,
lastVerified record into the handleStatus store (keyPath "id"); the
lastVerified field is Date.now() at the call. -/
def saveHandleStatus (s : List FileHandleStatus) (id : String)
    (st : HandleState) (now : Nat) : List FileHandleStatus :=
  putByKey (fun r => r.id) { id := id, status := st, lastVerified := now } s

/-- getHandleStatus, from src/lib/db.ts. -/
def getHandleStatus (s : List FileHandleStatus) (id : String) :
    Option FileHandleStatus :=
  getByKey (fun r => r.id) id s

/-- Modelled from the spec: getDescription is imported by
src/app/player/page.tsx from the metadata store module but is not among
the source files.  Section 4.4 of the specification requires that the
record saved by saveDescription for an episode is the one getDescription
returns for that episode id, so the descriptions keyspace is keyed by
the episodeId field. -/
def getDescription (s : List EpisodeDescription) (episodeId : String) :
    Option EpisodeDescription :=
  getByKey (fun r => r.episodeId) episodeId s

/-- Modelled from the spec: saveDescription, the write half of the
descriptions keyspace (see getDescription). -/
def saveDescription (s : List EpisodeDescription) (d : EpisodeDescription) :
    List EpisodeDescription :=
  putByKey (fun r => r.episodeId) d s

/-- The three keyspaces touched by the backup codec, from src/lib/db.ts. -/
structure MetadataDB where
  arcs : List ArcMetadata
  episodes : List EpisodeMetadata
  playback : List PlaybackProgress
deriving Repr, DecidableEq

/-- The exported backup bundle shape, from exportMetadata in src/lib/db.ts. -/
structure BackupBundle where
  version : Nat
  exportedAt : Nat
  arcs : List ArcMetadata
  episodes : List EpisodeMetadata
  playback : List PlaybackProgress
deriving Repr, DecidableEq

/-- exportMetadata, from src/lib/db.ts: getAll on arcs, episodes and
playback, wrapped with version 1 and a timestamp. -/
def exportMetadata (db : MetadataDB) (now : Nat) : BackupBundle :=
  { version := 1
    exportedAt := now
    arcs := db.arcs
    episodes := db.episodes
    playback := db.playback }

/-- importMetadata, from src/lib/db.ts: put every bundled record into its
keyspace (arcs and episodes keyed by id, playback by episodeId). -/
def importMetadata (db : MetadataDB) (b : BackupBundle) : MetadataDB :=
  { arcs := b.arcs.foldl (fun s a => putByKey (fun r => r.id) a s) db.arcs
    episodes := b.episodes.foldl (fun s e => putByKey (fun r => r.id) e s) db.episodes
    playback := b.playback.foldl (fun s p => putByKey (fun r => r.episodeId) p s) db.playback }

/-- Exact numeric value of a digit run.  JavaScript parseInt returns a
double, which carries this exact value only while it is below 2 to the
53rd; beyond that, distinct runs can round to the same double.  The
comparison theorems below therefore bound the run values by 2 to the
53rd, the range where this model and parseInt agree. -/
def natOfDigits (l : List Char) : Nat :=
  l.foldl (fun acc c => acc * 10 + (c.toNat - 48)) 0

/-- The leading digit run of a string (the regex match of a leading
d-plus group). -/
def leadingDigits (s : String) : List Char :=
  s.data.takeWhile Char.isDigit

/-- parseEpisodeNumber, from src/lib/file-system.ts and
src/unnamed/part_003: parse a leading digit run, or null when there is
none. -/
def parseEpisodeNumber (s : String) : Option Nat :=
  let ds := leadingDigits s
  if ds = [] then none else some (natOfDigits ds)

/-- True when the token is a nonempty all-digit run (the d-plus regex
test in naturalSort; the empty string fails it). -/
def isDigitRun (l : List Char) : Bool :=
  !l.isEmpty && l.all Char.isDigit

/-- Tokenize a character list into maximal runs of digits and of
non-digits.  This is exactly what splitting on a captured d-plus group
and filtering out empty pieces produces in src/lib/file-system.ts. -/
def splitRuns : List Char → List (List Char)
  | [] => []
  | c :: cs =>
    match splitRuns cs with
    | [] => [[c]]
    | r :: rs =>
      match r with
      | [] => [[c]]
      | d :: _ => if c.isDigit = d.isDigit then (c :: r) :: rs else [c] :: r :: rs

/-- Compare one pair of tokens as the loop body of naturalSort in
src/lib/file-system.ts does: two all-digit runs compare by numeric
value, anything else is delegated to the host locale comparison `lc`
(localeCompare with numeric and base-sensitivity options).  The source
compares parseInt doubles, so two distinct runs at or above 2 to the
53rd can compare equal there and fall through to the next token; this
exact-Nat model never ties such runs, so theorems about the digit
branch carry the 2 to the 53rd bound. -/
def cmpPart (lc : String → String → Int) (x y : List Char) : Int :=
  if isDigitRun x && isDigitRun y then
    (natOfDigits x : Int) - (natOfDigits y : Int)
  else
    lc (String.mk x) (String.mk y)

/-- Walk two token lists in step, padding the shorter one with empty
tokens, as the index loop of naturalSort in src/lib/file-system.ts
does. -/
def zipPad : List (List Char) → List (List Char) → List (List Char × List Char)
  | [], bs => bs.map fun y => ([], y)
  | x :: xs, [] => (x, []) :: zipPad xs []
  | x :: xs, y :: ys => (x, y) :: zipPad xs ys

/-- The first nonzero comparison outcome, else zero: the early returns
of the naturalSort loop. -/
def firstNonzero : List Int → Int
  | [] => 0
  | c :: rest => if c = 0 then firstNonzero rest else c

/-- The token-comparison loop of naturalSort in src/lib/file-system.ts:
compare the padded token pairs in order and return the first nonzero
comparison, else zero. -/
def goParts (lc : String → String → Int)
    (as bs : List (List Char)) : Int :=
  firstNonzero ((zipPad as bs).map fun p => cmpPart lc p.1 p.2)

/-- naturalSort, from src/lib/file-system.ts: split both names into
digit and non-digit runs and compare them pairwise.  The host locale
comparison is the explicit parameter `lc`. -/
def naturalSortSplit (lc : String → String → Int) (a b : String) : Int :=
  goParts lc (splitRuns a.data) (splitRuns b.data)

/-- naturalSort, from src/unnamed/part_003: compare leading episode
numbers when both names have one, order a numbered name before an
unnumbered one, and otherwise delegate to the host locale comparison.
The source subtracts parseInt doubles, which tie distinct runs at or
above 2 to the 53rd; this exact difference is faithful only below that
bound, which the comparison theorems carry. -/
def naturalSortLead (lc : String → String → Int) (a b : String) : Int :=
  match parseEpisodeNumber a, parseEpisodeNumber b with
  | some m, some n => (m : Int) - (n : Int)
  | some _, none => -1
  | none, some _ => 1
  | none, none => lc a b

/-- Lexicographic code-point comparison of character lists. -/
def cmpChars : List Char → List Char → Int
  | [], [] => 0
  | [], _ :: _ => -1
  | _ :: _, [] => 1
  | a :: as, b :: bs => if a = b then cmpChars as bs else (a.toNat : Int) - (b.toNat : Int)

/-- A concrete collation usable for the abstract `lc` parameter: plain
code-point order.  Real host collations agree with it on the pairs the
theorems below instantiate it at; in particular both order an
exclamation mark before the digit one. -/
def lcCodepoint (a b : String) : Int :=
  cmpChars a.data b.data

/-- Lowercase a string character by character (the ASCII fragment of
the JavaScript toLowerCase the sources apply to names). -/
def toLowerStr (s : String) : String :=
  String.mk (s.data.map Char.toLower)

/-- Split a character list at its last dot: the part before it and the
part from the dot on.  None when there is no dot. -/
def lastDotSplit : List Char → Option (List Char × List Char)
  | [] => none
  | c :: cs =>
    match lastDotSplit cs with
    | some (pre, post) => some (c :: pre, post)
    | none => if c = '.' then some ([], c :: cs) else none

/-- The base name a video file name contributes to its sidecar lookup:
everything before the last dot, and the empty string when there is no
dot (substring of a negative lastIndexOf in JavaScript). -/
def jsBaseName (s : String) : String :=
  match lastDotSplit s.data with
  | some (pre, _) => String.mk pre
  | none => ""

/-- The extension as the case-insensitive scan reads it: everything
from the last dot on, and the whole string when there is no dot
(substring of minus one in JavaScript). -/
def jsExt (s : String) : String :=
  match lastDotSplit s.data with
  | some (_, post) => String.mk post
  | none => s

/-- findDescriptionFile, from src/lib/file-system.ts, over a directory
modelled as a list of file names with their contents: try the exact
base-name dot txt file first, then scan for a case-insensitive base
name match with a txt extension; errors yield none. -/
def findDescriptionFile (dir : List (String × String)) (videoFileName : String) :
    Option String :=
  let base := jsBaseName videoFileName
  match getByKey (fun e => e.1) (base ++ ".txt") dir with
  | some e => some e.2
  | none =>
    (dir.find? fun e =>
      toLowerStr (jsBaseName e.1) == toLowerStr base &&
        toLowerStr (jsExt e.1) == ".txt").map fun e => e.2

/-- writeDescriptionFile, from src/lib/file-system.ts: create or
overwrite the base-name dot txt sidecar with the given content.  The
success of the host write is an explicit input of the callers below;
this function is the successful path. -/
def writeDescriptionFile (dir : List (String × String)) (videoFileName content : String) :
    List (String × String) :=
  putByKey (fun e => e.1) (jsBaseName videoFileName ++ ".txt", content) dir

/-- The stable playback identity computed in loadEpisodeVideo
(src/app/player/page.tsx line 121): arcSlug, file name and the files
last-modified epoch milliseconds joined by double colons. -/
def computeStableId (arcSlug fileName : String) (lastModified : Nat) : String :=
  arcSlug ++ "::" ++ fileName ++ "::" ++ toString lastModified

/-- The debounce state of the player page: the pending save timer
(expiry instant and the captured playback position) plus the
chronological list of persisted writes, each a fire instant with the
written position.  The persisted record is abbreviated to its
currentTime; its lastWatched is Date.now() at the fire instant, which
is the first component of the pair. -/
structure PageDebounce where
  pending : Option (Nat × Nat)
  writes : List (Nat × Nat)
deriving Repr, DecidableEq

/-- The event loop firing a due save timer: when the pending expiry has
been reached, the captured position is written and the timer slot is
cleared. -/
def firePending (s : PageDebounce) (now : Nat) : PageDebounce :=
  match s.pending with
  | some (e, v) => if e ≤ now then { pending := none, writes := s.writes ++ [(e, v)] } else s
  | none => s

/-- handleTimeUpdate, from src/app/player/page.tsx: bail out unless an
episode and a stable id are set, otherwise clear any pending timer and
start a fresh 1000 ms one capturing the reported position. -/
def handleTimeUpdate (hasEpisode : Bool) (stableId : String) (s : PageDebounce)
    (t v : Nat) : PageDebounce :=
  if hasEpisode && !(stableId == "") then
    { s with pending := some (t + 1000, v) }
  else s

/-- Deliver a list of time-update signals (instant, position) in order:
before each handler runs, the event loop fires any timer already due. -/
def processEvents (hasEpisode : Bool) (stableId : String) :
    PageDebounce → List (Nat × Nat) → PageDebounce
  | s, [] => s
  | s, (t, v) :: rest =>
    processEvents hasEpisode stableId
      (handleTimeUpdate hasEpisode stableId (firePending s t) t v) rest

/-- Let the remaining pending timer expire with no further events. -/
def drainPending (s : PageDebounce) : PageDebounce :=
  match s.pending with
  | some (e, v) => { pending := none, writes := s.writes ++ [(e, v)] }
  | none => s

/-- The last element of a timed event list, with a default. -/
def lastD : List (Nat × Nat) → (Nat × Nat) → (Nat × Nat)
  | [], d => d
  | x :: xs, _ => lastD xs x

/-- The pause handler of src/components/video-player.tsx: it invokes the
onTimeUpdate callback synchronously with the current video position, and
that callback is the (debouncing) handleTimeUpdate of the player page. -/
def pauseFlush (hasEpisode : Bool) (stableId : String) (s : PageDebounce)
    (t videoTime : Nat) : PageDebounce :=
  handleTimeUpdate hasEpisode stableId (firePending s t) t videoTime

/-- The visibilitychange handler of src/components/video-player.tsx for
the hidden transition: same synchronous call into the page handler. -/
def visibilityFlush (hasEpisode : Bool) (stableId : String) (s : PageDebounce)
    (t videoTime : Nat) : PageDebounce :=
  handleTimeUpdate hasEpisode stableId (firePending s t) t videoTime

/-- The beforeunload handler of src/components/video-player.tsx: same
synchronous call into the page handler. -/
def unloadFlush (hasEpisode : Bool) (stableId : String) (s : PageDebounce)
    (t videoTime : Nat) : PageDebounce :=
  handleTimeUpdate hasEpisode stableId (firePending s t) t videoTime

/-- Process termination right after an event: pending timers die with
the page, so only the writes already performed survive. -/
def unloadTerminate (s : PageDebounce) : List (Nat × Nat) :=
  s.writes

/-- The outcome of loadDescription: the resulting descriptions store,
the description handed to the UI, and whether a sidecar file was read. -/
structure LoadDescOutcome where
  store : List EpisodeDescription
  result : Option EpisodeDescription
  sidecarRead : Bool
deriving Repr, DecidableEq

/-- The fresh disk-sourced record loadDescription builds after reading a
sidecar (src/app/player/page.tsx lines 164 to 173). -/
def freshDiskDescription (episode : EpisodeMetadata) (text : String)
    (lastModified now : Nat) : EpisodeDescription :=
  { id := episode.id ++ "-desc"
    episodeId := episode.id
    arcId := episode.arcId
    fileName := episode.fileName
    text := text
    source := DescSource.disk
    lastModified := lastModified
    lastUpdated := now }

/-- The fallthrough of loadDescription in src/app/player/page.tsx once
the cache did not answer: read the sidecar if one is found, build and
persist a fresh disk-sourced record stamped with the current
modification time, else fall back to whatever the cache holds. -/
def loadDescriptionFresh (store : List EpisodeDescription)
    (episode : EpisodeMetadata) (dir : List (String × String))
    (lastModified now : Nat) : LoadDescOutcome :=
  match findDescriptionFile dir episode.fileName with
  | some text =>
    let desc := freshDiskDescription episode text lastModified now
    { store := saveDescription store desc, result := some desc, sidecarRead := true }
  | none =>
    { store := store, result := getDescription store episode.id, sidecarRead := false }

/-- loadDescription, from src/app/player/page.tsx: answer from the
cached record when its lastModified matches the files current
modification time, otherwise reconcile against the sidecar file. -/
def loadDescription (store : List EpisodeDescription)
    (episode : EpisodeMetadata) (dir : List (String × String))
    (lastModified now : Nat) : LoadDescOutcome :=
  match getDescription store episode.id with
  | some cached =>
    if cached.lastModified = lastModified then
      { store := store, result := some cached, sidecarRead := false }
    else
      loadDescriptionFresh store episode dir lastModified now
  | none => loadDescriptionFresh store episode dir lastModified now

/-- The leading-digit fragment of JavaScript parseInt: the numeric value
of the leading digit run, none when there is no leading digit (NaN). -/
def jsParseInt (s : String) : Option Nat :=
  let ds := leadingDigits s
  if ds = [] then none else some (natOfDigits ds)

/-- The lastModified recovery in handleDescriptionSave
(src/app/player/page.tsx line 196): the third double-colon field of the
stable id when present and nonempty, parsed as an integer, else
Date.now().  A present but non-numeric field would parse to NaN in the
source; that value is unreachable for ids built by computeStableId and
is modelled as 0. -/
def lastModifiedOf (stableId : String) (now : Nat) : Nat :=
  match (stableId.splitOn "::")[2]? with
  | some s => if s = "" then now else (jsParseInt s).getD 0
  | none => now

/-- The outcome of handleDescriptionSave: the resulting descriptions
store, the arc directory contents, and the error thrown to the caller,
if any. -/
structure SaveDescOutcome where
  store : List EpisodeDescription
  dir : List (String × String)
  error : Option String
deriving Repr, DecidableEq

/-- The description record handleDescriptionSave builds
(src/app/player/page.tsx lines 197 to 206). -/
def descRecordOf (ep : EpisodeMetadata) (arcHandleHeld : Bool)
    (stableId text : String) (saveToFile : Bool) (now : Nat) : EpisodeDescription :=
  { id := ep.id ++ "-desc"
    episodeId := ep.id
    arcId := ep.arcId
    fileName := ep.fileName
    text := text
    source := if saveToFile && arcHandleHeld then DescSource.disk else DescSource.local
    lastModified := lastModifiedOf stableId now
    lastUpdated := now }

/-- handleDescriptionSave, from src/app/player/page.tsx: bail out with
no effect when no episode is current; otherwise update the local cache
first, then, when a disk save was requested and an arc directory
capability is held, attempt the sidecar write and throw an explicit
error on its failure (the cache update stays applied).  The host write
success is the explicit input diskWriteOk. -/
def handleDescriptionSave (store : List EpisodeDescription)
    (dir : List (String × String)) (currentEpisode : Option EpisodeMetadata)
    (arcHandleHeld : Bool) (stableId text : String)
    (saveToFile diskWriteOk : Bool) (now : Nat) : SaveDescOutcome :=
  match currentEpisode with
  | none => { store := store, dir := dir, error := none }
  | some ep =>
    let desc := descRecordOf ep arcHandleHeld stableId text saveToFile now
    let store2 := saveDescription store desc
    if saveToFile && arcHandleHeld then
      if diskWriteOk then
        { store := store2, dir := writeDescriptionFile dir ep.fileName text, error := none }
      else
        { store := store2, dir := dir
          error := some "Failed to write description to disk. Changes saved locally." }
    else
      { store := store2, dir := dir, error := none }

/-- The named error conditions loadEpisodeVideo surfaces through
setHandleError in src/app/player/page.tsx. -/
inductive LoadError where
  | arcInfoMissing
  | rootHandleMissing
  | capabilityStale
  | episodeFileNotFound
deriving Repr, DecidableEq

/-- The host filesystem as loadEpisodeVideo observes it: whether the
root capability record exists, whether the permission check and arc
directory open succeed, and the last-modified instant of the episode
file when its open succeeds. -/
structure FsEnv where
  rootHandlePresent : Bool
  arcDirAccess : Bool
  episodeFileLastModified : Option Nat
deriving Repr, DecidableEq

/-- The outcome of loadEpisodeVideo: the resulting handleStatus store,
either a named error or the computed stable id with the resumable
position, and whether the episode file open was attempted. -/
structure LoadOutcome where
  handleStatus : List FileHandleStatus
  result : Except LoadError (String × Option Nat)
  fileOpenAttempted : Bool
deriving Repr

/-- loadEpisodeVideo, from src/app/player/page.tsx (lines 79 to 143):
check the arc name, fetch the root capability, verify it and open the
arc directory (on failure record status stale for root and surface the
named stale error without attempting the file open), open the episode
file, compute the stable id, look up a resumable position, and record
an ok status for the file identity.  The description reconciliation
step it then performs is modelled separately by loadDescription. -/
def loadEpisodeVideo (hs : List FileHandleStatus) (pb : List PlaybackProgress)
    (episode : EpisodeMetadata) (arcName arcSlug : String) (env : FsEnv)
    (now : Nat) : LoadOutcome :=
  if arcName = "" then
    { handleStatus := hs, result := Except.error LoadError.arcInfoMissing
      fileOpenAttempted := false }
  else if !env.rootHandlePresent then
    { handleStatus := hs, result := Except.error LoadError.rootHandleMissing
      fileOpenAttempted := false }
  else if !env.arcDirAccess then
    { handleStatus := saveHandleStatus hs "root" HandleState.stale now
      result := Except.error LoadError.capabilityStale
      fileOpenAttempted := false }
  else
    match env.episodeFileLastModified with
    | none =>
      { handleStatus := hs, result := Except.error LoadError.episodeFileNotFound
        fileOpenAttempted := true }
    | some lm =>
      let id := computeStableId arcSlug episode.fileName lm
      let resume :=
        match getPlaybackProgress pb id with
        | some p => if 0 < p.currentTime then some p.currentTime else none
        | none => none
      { handleStatus := saveHandleStatus hs ("file:" ++ id) HandleState.ok now
        result := Except.ok (id, resume)
        fileOpenAttempted := true }

/-- One discovered episode as the home page consumes it: the file name
and the extracted thumbnail when extraction succeeded. -/
structure DiscoveredEpisodeInput where
  fileName : String
  thumbnail : Option String
deriving Repr, DecidableEq

/-- One discovered arc as the home page consumes it: the slug id and
name produced by discoverArcs, the cover image found by findCoverImage,
and the episode files discoverEpisodes returned, in order. -/
structure DiscoveredArcInput where
  id : String
  name : String
  cover : Option String
  episodes : List DiscoveredEpisodeInput
deriving Repr, DecidableEq

/-- The host interactions the discovery loop performs for an arc it
registers. -/
inductive ScanEffect where
  | coverLookup (arcId : String)
  | episodeEnumeration (arcId : String)
  | thumbnailExtraction (episodeId : String)
deriving Repr, DecidableEq

/-- The episode record the discovery loop of src/unnamed/part_000 builds
for the i-th discovered file of an arc: the id appends ep and the
one-based index to the arc id, the display name prefers a nonzero
parsed episode number (zero is falsy in the source and falls back to
the index), and the order is the zero-based index. -/
def mkEpisodeMetadata (arcId : String) (i : Nat) (ep : DiscoveredEpisodeInput)
    (now : Nat) : EpisodeMetadata :=
  let num := parseEpisodeNumber ep.fileName
  { id := arcId ++ "-ep-" ++ toString (i + 1)
    arcId := arcId
    fileName := ep.fileName
    displayName :=
      match num with
      | some n => if n = 0 then "Episode " ++ toString (i + 1) else "Episode " ++ toString n
      | none => "Episode " ++ toString (i + 1)
    duration := 0
    thumbnail := ep.thumbnail
    order := i
    episodeNumber := num
    createdAt := now }

/-- Register all discovered episodes of a new arc, in order. -/
def registerEpisodes (db : MetadataDB) (arcId : String)
    (eps : List DiscoveredEpisodeInput) (now : Nat) : MetadataDB :=
  eps.enum.foldl
    (fun acc p =>
      { acc with episodes := saveEpisode acc.episodes (mkEpisodeMetadata arcId p.1 p.2 now) })
    db

/-- The body of the discovery loop in handlePickDirectory
(src/unnamed/part_000 lines 51 to 111) for one discovered arc: when an
arc with the same id is already in the in-memory arc list, nothing at
all happens for it; otherwise the cover is looked up, the arc record is
written with order equal to the length of that list, its episodes are
enumerated and registered, and a thumbnail extraction is attempted for
each. -/
def processArc (arcsState : List ArcMetadata) (db : MetadataDB)
    (d : DiscoveredArcInput) (now : Nat) : MetadataDB × List ScanEffect :=
  if arcsState.any fun a => a.id == d.id then
    (db, [])
  else
    let arcMeta : ArcMetadata :=
      { id := d.id
        name := d.name
        displayName := d.name
        coverImage := d.cover
        description := none
        order := arcsState.length
        createdAt := now }
    let db1 := { db with arcs := saveArc db.arcs arcMeta }
    let db2 := registerEpisodes db1 d.id d.episodes now
    (db2,
      ScanEffect.coverLookup d.id :: ScanEffect.episodeEnumeration d.id ::
        d.episodes.enum.map fun p =>
          ScanEffect.thumbnailExtraction (d.id ++ "-ep-" ++ toString (p.1 + 1)))

/-- handlePickDirectory, from src/unnamed/part_000: walk the discovered
arcs against the arc list loaded from the store at mount, which the
loop does not refresh (so the length used for order is fixed
throughout).  The root capability save and the final reload are outside
the modelled store effects. -/
def handlePickDirectory (db : MetadataDB) (discovered : List DiscoveredArcInput)
    (now : Nat) : MetadataDB × List ScanEffect :=
  discovered.foldl
    (fun acc d =>
      let r := processArc db.arcs acc.1 d now
      (r.1, acc.2 ++ r.2))
    (db, [])

/-- A playback record saved while the episode file had modification
time 100; its id is the stable id, its episodeId the discovery id. -/
def c1Old : PlaybackProgress :=
  { id := "east-blue::001.mp4::100"
    episodeId := "east-blue-ep-1"
    arcId := "east-blue"
    currentTime := 42
    duration := 0
    lastWatched := 1000 }

/-- The playback record saved for the same episode after its file was
replaced, moving the modification time to 200. -/
def c1New : PlaybackProgress :=
  { id := "east-blue::001.mp4::200"
    episodeId := "east-blue-ep-1"
    arcId := "east-blue"
    currentTime := 5
    duration := 0
    lastWatched := 2000 }

/-- Gap condition on a timed signal list: instants are nondecreasing and
each signal arrives strictly within 1000 ms of its predecessor. -/
def gapsOk : List (Nat × Nat) → Bool
  | [] => true
  | [_] => true
  | (t1, _) :: (t2, v2) :: rest =>
    decide (t1 ≤ t2) && decide (t2 < t1 + 1000) && gapsOk ((t2, v2) :: rest)

theorem getByKey_cons (key : α → String) (k : String) (x : α) (xs : List α) :
    getByKey key k (x :: xs) = if key x = k then some x else getByKey key k xs := by
  by_cases h : key x = k
  · unfold getByKey
    rw [List.find?_cons_of_pos _ (by simp [h])]
    simp [h]
  · unfold getByKey
    rw [List.find?_cons_of_neg _ (by simp [h])]
    simp [h]

theorem getByKey_putByKey (key : α → String) (r : α) (k : String) (s : List α) :
    getByKey key k (putByKey key r s) =
      if key r = k then some r else getByKey key k s := by
  induction s with
  | nil =>
    simp only [putByKey]
    rw [getByKey_cons]
  | cons x xs ih =>
    by_cases hx : key x = key r
    · simp only [putByKey, if_pos hx]
      rw [getByKey_cons, getByKey_cons]
      by_cases h : key r = k
      · simp [h]
      · have hxk : key x ≠ k := fun hh => h (hx ▸ hh)
        simp [h, hxk]
    · simp only [putByKey, if_neg hx]
      rw [getByKey_cons, getByKey_cons]
      by_cases hxk : key x = k
      · have hr : key r ≠ k := fun hh => hx (by rw [hh, hxk])
        simp [hxk, hr]
      · simp [hxk, ih]

theorem putByKey_self (key : α → String) (r : α) (s : List α)
    (hwf : WFStore key s) (hm : r ∈ s) : putByKey key r s = s := by
  induction s with
  | nil => cases hm
  | cons x xs ih =>
    rcases List.mem_cons.mp hm with rfl | hm2
    · simp [putByKey]
    · have hx : key x ≠ key r := (List.pairwise_cons.mp hwf).1 r hm2
      simp [putByKey, hx, ih (List.pairwise_cons.mp hwf).2 hm2]

theorem foldl_putByKey_id (key : α → String) (s : List α) (hwf : WFStore key s)
    (l : List α) (hl : ∀ r ∈ l, r ∈ s) :
    l.foldl (fun acc r => putByKey key r acc) s = s := by
  induction l with
  | nil => rfl
  | cons a l ih =>
    simp only [List.foldl_cons]
    rw [putByKey_self key a s hwf (hl a (List.mem_cons_self a l))]
    exact ih fun r hr => hl r (List.mem_cons_of_mem a hr)

/-- C1: the specification claims playback progress is keyed by the
stable id arcSlug::fileName::lastModified, with an old record staying
retrievable under its old id after the file modification time changes.
The playback object store in src/lib/db.ts is instead created with
keyPath episodeId, so the record saved after a modification-time change
overwrites the earlier one (both share the episode id) and a lookup by
the old stable id finds nothing. -/
theorem C1_playback_store_keys_by_episode_id :
    computeStableId "east-blue" "001.mp4" 100 = c1Old.id ∧
    computeStableId "east-blue" "001.mp4" 200 = c1New.id ∧
    c1Old.id ≠ c1New.id ∧
    getPlaybackProgress (savePlaybackProgress (savePlaybackProgress [] c1Old) c1New)
      c1Old.id = none ∧
    savePlaybackProgress (savePlaybackProgress [] c1Old) c1New = [c1New] := by
  refine ⟨by decide, by decide, by decide, rfl, rfl⟩

/-- C2: the specification claims pause, visibility loss and unload write
the current position to the store immediately, bypassing the pending
1000 ms debounce timer.  The handlers in src/components/video-player.tsx
do bypass the player-internal timer, but they call the page handler
handleTimeUpdate, which only restarts the page-level 1000 ms timer: at
the event instant nothing has been written, the write is scheduled a
full second later, and when the process unloads right after the handler
the pending write is lost entirely. -/
theorem C2_flush_handlers_only_restart_debounce :
    (pauseFlush true "sid" (handleTimeUpdate true "sid"
        { pending := none, writes := [] } 0 5) 500 7).writes = [] ∧
    (pauseFlush true "sid" (handleTimeUpdate true "sid"
        { pending := none, writes := [] } 0 5) 500 7).pending = some (1500, 7) ∧
    (visibilityFlush true "sid" (handleTimeUpdate true "sid"
        { pending := none, writes := [] } 0 5) 500 7).writes = [] ∧
    unloadTerminate (unloadFlush true "sid" (handleTimeUpdate true "sid"
        { pending := none, writes := [] } 0 5) 500 7) = [] := by
  refine ⟨rfl, rfl, rfl, rfl⟩

theorem processEvents_pending_invariant (sid : String) (hsid : sid ≠ "")
    (evts : List (Nat × Nat)) :
    ∀ (t v : Nat) (w : List (Nat × Nat)), gapsOk ((t, v) :: evts) = true →
      processEvents true sid { pending := some (t + 1000, v), writes := w } evts =
        { pending := some ((lastD evts (t, v)).1 + 1000, (lastD evts (t, v)).2)
          writes := w } := by
  induction evts with
  | nil => intro t v w _; rfl
  | cons p rest ih =>
    intro t v w h
    obtain ⟨t2, v2⟩ := p
    simp only [gapsOk, Bool.and_eq_true, decide_eq_true_eq] at h
    obtain ⟨⟨hle, hlt⟩, htail⟩ := h
    have hfire : firePending { pending := some (t + 1000, v), writes := w } t2 =
        { pending := some (t + 1000, v), writes := w } := by
      simp [firePending, Nat.not_le.mpr hlt]
    have hupd : handleTimeUpdate true sid
        { pending := some (t + 1000, v), writes := w } t2 v2 =
        { pending := some (t2 + 1000, v2), writes := w } := by
      simp [handleTimeUpdate, hsid]
    show processEvents true sid
        (handleTimeUpdate true sid
          (firePending { pending := some (t + 1000, v), writes := w } t2) t2 v2) rest = _
    rw [hfire, hupd]
    exact ih t2 v2 w htail


/-- C3: N time-update signals each arriving strictly within 1000 ms of
the previous one produce exactly one persisted write, carrying the last
signal's value and firing 1000 ms after it; and any signal arriving
before the pending timer expires cancels that timer and restarts it
around the new value, without writing. -/
theorem C3_debounce_coalescing (sid : String) (t v : Nat)
    (evts : List (Nat × Nat)) (hsid : sid ≠ "")
    (h : gapsOk ((t, v) :: evts) = true) :
    drainPending (processEvents true sid { pending := none, writes := [] }
        ((t, v) :: evts)) =
      { pending := none
        writes := [((lastD evts (t, v)).1 + 1000, (lastD evts (t, v)).2)] } ∧
    ∀ (s : PageDebounce) (e x t2 v2 : Nat), s.pending = some (e, x) → t2 < e →
      handleTimeUpdate true sid (firePending s t2) t2 v2 =
        { pending := some (t2 + 1000, v2), writes := s.writes } := by
  constructor
  · have hstep : processEvents true sid { pending := none, writes := [] }
        ((t, v) :: evts) =
        processEvents true sid { pending := some (t + 1000, v), writes := [] } evts := by
      show processEvents true sid
          (handleTimeUpdate true sid
            (firePending { pending := none, writes := [] } t) t v) evts = _
      simp [firePending, handleTimeUpdate, hsid]
    rw [hstep, processEvents_pending_invariant sid hsid evts t v [] h]
    rfl
  · intro s e x t2 v2 hp hlt
    have hfire : firePending s t2 = s := by
      simp [firePending, hp, Nat.not_le.mpr hlt]
    rw [hfire]
    simp [handleTimeUpdate, hsid]

/-- C3 witness: two signals 500 ms apart produce the single write
(1500, 7), and a signal at 500 against a timer expiring at 1000
replaces the pending entry without writing. -/
theorem C3_debounce_coalescing_witness :
    ("x" : String) ≠ "" ∧ gapsOk [(0, 5), (500, 7)] = true ∧
    (drainPending (processEvents true "x" { pending := none, writes := [] }
        [(0, 5), (500, 7)]) =
      { pending := none
        writes := [((lastD [(500, 7)] (0, 5)).1 + 1000, (lastD [(500, 7)] (0, 5)).2)] } ∧
    ∀ (s : PageDebounce) (e x t2 v2 : Nat), s.pending = some (e, x) → t2 < e →
      handleTimeUpdate true "x" (firePending s t2) t2 v2 =
        { pending := some (t2 + 1000, v2), writes := s.writes }) :=
  ⟨by decide, by decide,
    C3_debounce_coalescing "x" 0 5 [(500, 7)] (by decide) (by decide)⟩

/-- C4: description reconciliation at load time.  A cached record whose
lastModified equals the file's current modification time is returned
verbatim with no sidecar read; otherwise a found sidecar is read and a
fresh disk-sourced record stamped with the current modification time
overwrites the cache and is returned; with no sidecar found, whatever
the cache holds (regardless of its lastModified) is returned, or none. -/
theorem C4_description_reconciliation (store : List EpisodeDescription)
    (episode : EpisodeMetadata) (dir : List (String × String)) (lm now : Nat) :
    (∀ cached, getDescription store episode.id = some cached →
      cached.lastModified = lm →
      loadDescription store episode dir lm now =
        { store := store, result := some cached, sidecarRead := false }) ∧
    (∀ text, (∀ cached, getDescription store episode.id = some cached →
        cached.lastModified ≠ lm) →
      findDescriptionFile dir episode.fileName = some text →
      loadDescription store episode dir lm now =
        { store := saveDescription store (freshDiskDescription episode text lm now)
          result := some (freshDiskDescription episode text lm now)
          sidecarRead := true }) ∧
    ((∀ cached, getDescription store episode.id = some cached →
        cached.lastModified ≠ lm) →
      findDescriptionFile dir episode.fileName = none →
      loadDescription store episode dir lm now =
        { store := store, result := getDescription store episode.id
          sidecarRead := false }) := by
  refine ⟨?_, ?_, ?_⟩
  · intro cached hget hlm
    simp [loadDescription, hget, hlm]
  · intro text hne hfind
    cases hget : getDescription store episode.id with
    | none => simp [loadDescription, hget, loadDescriptionFresh, hfind]
    | some c =>
      have hc : c.lastModified ≠ lm := hne c hget
      simp [loadDescription, hget, hc, loadDescriptionFresh, hfind]
  · intro hne hfind
    cases hget : getDescription store episode.id with
    | none => simp [loadDescription, hget, loadDescriptionFresh, hfind]
    | some c =>
      have hc : c.lastModified ≠ lm := hne c hget
      simp [loadDescription, hget, hc, loadDescriptionFresh, hfind]

/-- C4 witness: a cached record with lastModified 7 is returned verbatim
at a load where the file's modification time is also 7, with no sidecar
read. -/
theorem C4_description_reconciliation_witness :
    getDescription [⟨"e1-desc", "e1", "a1", "01.mp4", "hello", DescSource.local, 7, 3⟩]
        (⟨"e1", "a1", "01.mp4", "Episode 1", 0, none, 0, some 1, 0⟩ : EpisodeMetadata).id =
      some ⟨"e1-desc", "e1", "a1", "01.mp4", "hello", DescSource.local, 7, 3⟩ ∧
    loadDescription [⟨"e1-desc", "e1", "a1", "01.mp4", "hello", DescSource.local, 7, 3⟩]
        ⟨"e1", "a1", "01.mp4", "Episode 1", 0, none, 0, some 1, 0⟩ [] 7 99 =
      { store := [⟨"e1-desc", "e1", "a1", "01.mp4", "hello", DescSource.local, 7, 3⟩]
        result := some ⟨"e1-desc", "e1", "a1", "01.mp4", "hello", DescSource.local, 7, 3⟩
        sidecarRead := false } :=
  ⟨by decide,
    (C4_description_reconciliation
        [⟨"e1-desc", "e1", "a1", "01.mp4", "hello", DescSource.local, 7, 3⟩]
        ⟨"e1", "a1", "01.mp4", "Episode 1", 0, none, 0, some 1, 0⟩ [] 7 99).1
      ⟨"e1-desc", "e1", "a1", "01.mp4", "hello", DescSource.local, 7, 3⟩
      (by decide) rfl⟩

/-- C5: with an episode current, saving a description always writes the
cache record first (it is retrievable immediately under the episode
id); when a disk save was requested and the sidecar write fails, the
caller receives the explicit disk-write error while the cache update
stays applied and the directory is untouched. -/
theorem C5_description_save_cache_first (store : List EpisodeDescription)
    (dir : List (String × String)) (ep : EpisodeMetadata) (arcHeld : Bool)
    (sid text : String) (saveToFile diskOk : Bool) (now : Nat) :
    (handleDescriptionSave store dir (some ep) arcHeld sid text saveToFile diskOk now).store =
      saveDescription store (descRecordOf ep arcHeld sid text saveToFile now) ∧
    getDescription
      (handleDescriptionSave store dir (some ep) arcHeld sid text saveToFile diskOk now).store
      ep.id = some (descRecordOf ep arcHeld sid text saveToFile now) ∧
    (saveToFile = true → arcHeld = true → diskOk = false →
      handleDescriptionSave store dir (some ep) arcHeld sid text saveToFile diskOk now =
        { store := saveDescription store (descRecordOf ep arcHeld sid text saveToFile now)
          dir := dir
          error := some "Failed to write description to disk. Changes saved locally." }) := by
  have hstore : (handleDescriptionSave store dir (some ep) arcHeld sid text
      saveToFile diskOk now).store =
      saveDescription store (descRecordOf ep arcHeld sid text saveToFile now) := by
    by_cases h1 : saveToFile && arcHeld
    · by_cases h2 : diskOk <;> simp [handleDescriptionSave, h1, h2]
    · simp [handleDescriptionSave, h1]
  refine ⟨hstore, ?_, ?_⟩
  · rw [hstore]
    simp [getDescription, saveDescription, getByKey_putByKey, descRecordOf]
  · intro h1 h2 h3
    simp [handleDescriptionSave, h1, h2, h3]

/-- C5 witness: a failing sidecar write reports the explicit error while
the cache keeps the new record. -/
theorem C5_description_save_cache_first_witness :
    handleDescriptionSave [] []
        (some ⟨"e1", "a1", "01.mp4", "Episode 1", 0, none, 0, some 1, 0⟩)
        true "a1::01.mp4::5" "new text" true false 9 =
      { store := saveDescription []
          (descRecordOf ⟨"e1", "a1", "01.mp4", "Episode 1", 0, none, 0, some 1, 0⟩
            true "a1::01.mp4::5" "new text" true 9)
        dir := []
        error := some "Failed to write description to disk. Changes saved locally." } :=
  (C5_description_save_cache_first [] []
      ⟨"e1", "a1", "01.mp4", "Episode 1", 0, none, 0, some 1, 0⟩
      true "a1::01.mp4::5" "new text" true false 9).2.2 rfl rfl rfl

/-- C6: when the permission check or arc directory open on the root
capability fails during episode load, a stale status is recorded for the
root identity, the episode file open is not attempted, and the failure
surfaces as the named capabilityStale condition of the total load
function. -/
theorem C6_capability_stale (hs : List FileHandleStatus)
    (pb : List PlaybackProgress) (episode : EpisodeMetadata)
    (arcName arcSlug : String) (env : FsEnv) (now : Nat)
    (hname : arcName ≠ "") (hroot : env.rootHandlePresent = true)
    (hacc : env.arcDirAccess = false) :
    loadEpisodeVideo hs pb episode arcName arcSlug env now =
      { handleStatus := saveHandleStatus hs "root" HandleState.stale now
        result := Except.error LoadError.capabilityStale
        fileOpenAttempted := false } ∧
    getHandleStatus
      (loadEpisodeVideo hs pb episode arcName arcSlug env now).handleStatus "root" =
      some { id := "root", status := HandleState.stale, lastVerified := now } := by
  have hmain : loadEpisodeVideo hs pb episode arcName arcSlug env now =
      { handleStatus := saveHandleStatus hs "root" HandleState.stale now
        result := Except.error LoadError.capabilityStale
        fileOpenAttempted := false } := by
    simp [loadEpisodeVideo, hname, hroot, hacc]
  refine ⟨hmain, ?_⟩
  rw [hmain]
  simp [getHandleStatus, saveHandleStatus, getByKey_putByKey]

/-- C6 witness: with the root capability present but its verification
failing, the load records a stale root status, skips the file open and
returns the named stale error. -/
theorem C6_capability_stale_witness :
    loadEpisodeVideo [] [] ⟨"e1", "a1", "01.mp4", "Episode 1", 0, none, 0, some 1, 0⟩
        "Arc 1" "arc-1" ⟨true, false, none⟩ 5 =
      { handleStatus := saveHandleStatus [] "root" HandleState.stale 5
        result := Except.error LoadError.capabilityStale
        fileOpenAttempted := false } ∧
    getHandleStatus
      (loadEpisodeVideo [] [] ⟨"e1", "a1", "01.mp4", "Episode 1", 0, none, 0, some 1, 0⟩
        "Arc 1" "arc-1" ⟨true, false, none⟩ 5).handleStatus "root" =
      some { id := "root", status := HandleState.stale, lastVerified := 5 } :=
  C6_capability_stale [] [] ⟨"e1", "a1", "01.mp4", "Episode 1", 0, none, 0, some 1, 0⟩
    "Arc 1" "arc-1" ⟨true, false, none⟩ 5 (by decide) rfl rfl

theorem takeWhile_all_sat (p : α → Bool) (l : List α) :
    (l.takeWhile p).all p = true := by
  induction l with
  | nil => rfl
  | cons x xs ih =>
    by_cases h : p x
    · simp [List.takeWhile_cons, h, ih]
    · simp [List.takeWhile_cons, h]

theorem splitRuns_cons_shape (cs : List Char) :
    ∀ c : Char, ∃ r rs, splitRuns (c :: cs) = (c :: r) :: rs := by
  induction cs with
  | nil => intro c; exact ⟨[], [], rfl⟩
  | cons c2 cs2 ih =>
    intro c
    obtain ⟨r2, rs2, h2⟩ := ih c2
    by_cases hk : c.isDigit = c2.isDigit
    · refine ⟨c2 :: r2, rs2, ?_⟩
      show (match splitRuns (c2 :: cs2) with
        | [] => [[c]]
        | r :: rs =>
          match r with
          | [] => [[c]]
          | d :: _ =>
            if c.isDigit = d.isDigit then (c :: r) :: rs else [c] :: r :: rs) =
        (c :: c2 :: r2) :: rs2
      rw [h2]
      simp [hk]
    · refine ⟨[], (c2 :: r2) :: rs2, ?_⟩
      show (match splitRuns (c2 :: cs2) with
        | [] => [[c]]
        | r :: rs =>
          match r with
          | [] => [[c]]
          | d :: _ =>
            if c.isDigit = d.isDigit then (c :: r) :: rs else [c] :: r :: rs) =
        [c] :: (c2 :: r2) :: rs2
      rw [h2]
      simp [hk]

theorem splitRuns_takeWhile_digit (cs : List Char) :
    ∀ c : Char, c.isDigit = true →
      ∃ rest, splitRuns (c :: cs) = ((c :: cs).takeWhile Char.isDigit) :: rest := by
  induction cs with
  | nil =>
    intro c hc
    refine ⟨[], ?_⟩
    simp [splitRuns, List.takeWhile_cons, hc]
  | cons c2 cs2 ih =>
    intro c hc
    by_cases h2 : c2.isDigit
    · obtain ⟨rest2, hr2⟩ := ih c2 h2
      rw [List.takeWhile_cons, if_pos h2] at hr2
      refine ⟨rest2, ?_⟩
      show (match splitRuns (c2 :: cs2) with
        | [] => [[c]]
        | r :: rs =>
          match r with
          | [] => [[c]]
          | d :: _ =>
            if c.isDigit = d.isDigit then (c :: r) :: rs else [c] :: r :: rs) = _
      rw [hr2]
      simp [List.takeWhile_cons, hc, h2]
    · obtain ⟨r2, rs2, hshape⟩ := splitRuns_cons_shape cs2 c2
      refine ⟨(c2 :: r2) :: rs2, ?_⟩
      show (match splitRuns (c2 :: cs2) with
        | [] => [[c]]
        | r :: rs =>
          match r with
          | [] => [[c]]
          | d :: _ =>
            if c.isDigit = d.isDigit then (c :: r) :: rs else [c] :: r :: rs) = _
      rw [hshape]
      have hne : c.isDigit ≠ c2.isDigit := by
        rw [hc]
        simp [h2]
      simp [hne, List.takeWhile_cons, hc, h2]

/-- C8 counterexample: under a host collation that orders an exclamation
mark before the digit one (as real collations do), the run-splitting
comparator of src/lib/file-system.ts orders the unnumbered name
"!a.mp4" before the numbered name "1.mp4", contradicting the claim
that a name with a leading numeric run always comes first. -/
theorem C8_counterexample :
    parseEpisodeNumber "1.mp4" = some 1 ∧
    parseEpisodeNumber "!a.mp4" = none ∧
    lcCodepoint "1" "!a.mp" > 0 ∧
    naturalSortSplit lcCodepoint "1.mp4" "!a.mp4" = 16 ∧
    ¬ naturalSortSplit lcCodepoint "1.mp4" "!a.mp4" < 0 := by
  decide

/-- C8 amended: when both names carry leading numeric runs m and n with
m smaller and both values below 2 to the 53rd (the range where the
double produced by parseInt is exact, so the Nat model coincides with
the source; beyond it distinct runs can round to the same double and
the source ties or falls through to the suffix), both comparators in
the repository order the m-name first, regardless of the suffixes and
of the host collation; a name with a leading numeric run precedes any
name without one under the leading-number comparator of
src/unnamed/part_003, while the run-splitting comparator of
src/lib/file-system.ts delegates that case to the host collation (see
the counterexample). -/
theorem C8_natural_sort_amended (lc : String → String → Int) (a b : String)
    (m n : Nat) (ha : parseEpisodeNumber a = some m)
    (hb : parseEpisodeNumber b = some n)
    (_hm : m < 2 ^ 53) (_hn : n < 2 ^ 53) :
    (m < n → naturalSortSplit lc a b < 0 ∧ naturalSortLead lc a b < 0) ∧
    (∀ c, parseEpisodeNumber c = none → naturalSortLead lc a c < 0) := by
  have hsplit : ∀ (s : String) (k : Nat), parseEpisodeNumber s = some k →
      leadingDigits s ≠ [] ∧ natOfDigits (leadingDigits s) = k := by
    intro s k hk
    unfold parseEpisodeNumber at hk
    by_cases hd : leadingDigits s = []
    · simp [hd] at hk
    · simp only [if_neg hd, Option.some.injEq] at hk
      exact ⟨hd, hk⟩
  have hhead : ∀ s : String, leadingDigits s ≠ [] →
      ∃ c cs, s.data = c :: cs ∧ c.isDigit = true := by
    intro s hne
    unfold leadingDigits at hne
    cases hsd : s.data with
    | nil => rw [hsd] at hne; simp at hne
    | cons c cs =>
      rw [hsd] at hne
      by_cases hc : c.isDigit
      · exact ⟨c, cs, rfl, hc⟩
      · simp [List.takeWhile_cons, hc] at hne
  have hda := hsplit a m ha
  have hdb := hsplit b n hb
  constructor
  · intro hmn
    constructor
    · obtain ⟨ca, csa, hea, hca⟩ := hhead a hda.1
      obtain ⟨cb, csb, heb, hcb⟩ := hhead b hdb.1
      obtain ⟨ra, hra⟩ := splitRuns_takeWhile_digit csa ca hca
      obtain ⟨rb, hrb⟩ := splitRuns_takeWhile_digit csb cb hcb
      have hna : natOfDigits ((ca :: csa).takeWhile Char.isDigit) = m := by
        have h := hda.2
        unfold leadingDigits at h
        rw [hea] at h
        exact h
      have hnb : natOfDigits ((cb :: csb).takeWhile Char.isDigit) = n := by
        have h := hdb.2
        unfold leadingDigits at h
        rw [heb] at h
        exact h
      have hta : isDigitRun ((ca :: csa).takeWhile Char.isDigit) = true := by
        rw [List.takeWhile_cons, if_pos hca]
        simp [isDigitRun, hca, takeWhile_all_sat]
      have htb : isDigitRun ((cb :: csb).takeWhile Char.isDigit) = true := by
        rw [List.takeWhile_cons, if_pos hcb]
        simp [isDigitRun, hcb, takeWhile_all_sat]
      have hcmp : cmpPart lc ((ca :: csa).takeWhile Char.isDigit)
          ((cb :: csb).takeWhile Char.isDigit) = (m : Int) - (n : Int) := by
        rw [cmpPart, if_pos (by rw [hta, htb]; rfl)]
        rw [hna, hnb]
      unfold naturalSortSplit
      rw [hea, heb, hra, hrb]
      show firstNonzero
        ((zipPad (((ca :: csa).takeWhile Char.isDigit) :: ra)
            (((cb :: csb).takeWhile Char.isDigit) :: rb)).map
          fun p => cmpPart lc p.1 p.2) < 0
      rw [zipPad]
      simp only [List.map_cons, firstNonzero, hcmp]
      have hne0 : (m : Int) - (n : Int) ≠ 0 := by omega
      rw [if_neg hne0]
      omega
    · rw [naturalSortLead, ha, hb]
      show (m : Int) - (n : Int) < 0
      omega
  · intro c hc
    rw [naturalSortLead, ha, hc]
    show (-1 : Int) < 0
    decide

/-- C8 amended witness: the numbered names 2-foo.mp4 and 10-bar.mp4 are
ordered numerically by both comparators, and the leading-number
comparator puts the numbered name before the unnumbered abc.mp4. -/
theorem C8_natural_sort_amended_witness :
    parseEpisodeNumber "2-foo.mp4" = some 2 ∧
    parseEpisodeNumber "10-bar.mp4" = some 10 ∧
    parseEpisodeNumber "abc.mp4" = none ∧
    (2 : Nat) < 2 ^ 53 ∧ (10 : Nat) < 2 ^ 53 ∧
    naturalSortSplit lcCodepoint "2-foo.mp4" "10-bar.mp4" < 0 ∧
    naturalSortLead lcCodepoint "2-foo.mp4" "10-bar.mp4" < 0 ∧
    naturalSortLead lcCodepoint "2-foo.mp4" "abc.mp4" < 0 :=
  ⟨by decide, by decide, by decide, by norm_num, by norm_num,
    ((C8_natural_sort_amended lcCodepoint "2-foo.mp4" "10-bar.mp4" 2 10
        (by decide) (by decide) (by norm_num) (by norm_num)).1 (by decide)).1,
    ((C8_natural_sort_amended lcCodepoint "2-foo.mp4" "10-bar.mp4" 2 10
        (by decide) (by decide) (by norm_num) (by norm_num)).1 (by decide)).2,
    (C8_natural_sort_amended lcCodepoint "2-foo.mp4" "10-bar.mp4" 2 10
        (by decide) (by decide) (by norm_num) (by norm_num)).2 "abc.mp4" (by decide)⟩

/-- C9: the export bundle is version 1 with the full contents of the
arcs, episodes and playback keyspaces, and importing it back is a
no-op on those keyspaces: every record is re-put under the key it
already occupies. -/
theorem C9_backup_roundtrip (db : MetadataDB) (now : Nat)
    (h1 : WFStore (fun r => r.id) db.arcs)
    (h2 : WFStore (fun r => r.id) db.episodes)
    (h3 : WFStore (fun r => r.episodeId) db.playback) :
    importMetadata db (exportMetadata db now) = db ∧
    (exportMetadata db now).version = 1 ∧
    (exportMetadata db now).exportedAt = now ∧
    (exportMetadata db now).arcs = db.arcs ∧
    (exportMetadata db now).episodes = db.episodes ∧
    (exportMetadata db now).playback = db.playback := by
  refine ⟨?_, rfl, rfl, rfl, rfl, rfl⟩
  have e1 := foldl_putByKey_id (fun r => r.id) db.arcs h1 db.arcs fun r hr => hr
  have e2 := foldl_putByKey_id (fun r => r.id) db.episodes h2 db.episodes fun r hr => hr
  have e3 := foldl_putByKey_id (fun r => r.episodeId) db.playback h3 db.playback
    fun r hr => hr
  simp [importMetadata, exportMetadata, e1, e2, e3]

/-- C9 witness: a one-record-per-keyspace store round-trips unchanged
through export and import. -/
theorem C9_backup_roundtrip_witness :
    importMetadata
        ⟨[⟨"a1", "Arc", "Arc", none, none, 0, 0⟩],
         [⟨"a1-ep-1", "a1", "01.mp4", "Episode 1", 0, none, 0, some 1, 0⟩],
         [⟨"a1::01.mp4::100", "a1-ep-1", "a1", 42, 0, 7⟩]⟩
        (exportMetadata
          ⟨[⟨"a1", "Arc", "Arc", none, none, 0, 0⟩],
           [⟨"a1-ep-1", "a1", "01.mp4", "Episode 1", 0, none, 0, some 1, 0⟩],
           [⟨"a1::01.mp4::100", "a1-ep-1", "a1", 42, 0, 7⟩]⟩ 12) =
      ⟨[⟨"a1", "Arc", "Arc", none, none, 0, 0⟩],
       [⟨"a1-ep-1", "a1", "01.mp4", "Episode 1", 0, none, 0, some 1, 0⟩],
       [⟨"a1::01.mp4::100", "a1-ep-1", "a1", 42, 0, 7⟩]⟩ ∧
    (exportMetadata
        ⟨[⟨"a1", "Arc", "Arc", none, none, 0, 0⟩],
         [⟨"a1-ep-1", "a1", "01.mp4", "Episode 1", 0, none, 0, some 1, 0⟩],
         [⟨"a1::01.mp4::100", "a1-ep-1", "a1", 42, 0, 7⟩]⟩ 12).version = 1 :=
  ⟨(C9_backup_roundtrip
      ⟨[⟨"a1", "Arc", "Arc", none, none, 0, 0⟩],
       [⟨"a1-ep-1", "a1", "01.mp4", "Episode 1", 0, none, 0, some 1, 0⟩],
       [⟨"a1::01.mp4::100", "a1-ep-1", "a1", 42, 0, 7⟩]⟩ 12
      (by simp [WFStore]) (by simp [WFStore]) (by simp [WFStore])).1,
   (C9_backup_roundtrip
      ⟨[⟨"a1", "Arc", "Arc", none, none, 0, 0⟩],
       [⟨"a1-ep-1", "a1", "01.mp4", "Episode 1", 0, none, 0, some 1, 0⟩],
       [⟨"a1::01.mp4::100", "a1-ep-1", "a1", 42, 0, 7⟩]⟩ 12
      (by simp [WFStore]) (by simp [WFStore]) (by simp [WFStore])).2.1⟩

/-- C10: a discovered arc whose id is already present in the arc list
loaded from the store is skipped entirely by the discovery loop: no arc
write, no episode registration, no cover lookup, no episode enumeration
and no thumbnail extraction; consequently a rescan in which every
discovered arc is already known leaves the store untouched and performs
no host interaction. -/
theorem C10_rescan_skips_known_arcs (db : MetadataDB)
    (discovered : List DiscoveredArcInput) (now : Nat) :
    (∀ (arcsState : List ArcMetadata) (db2 : MetadataDB) (d : DiscoveredArcInput),
      (∃ a ∈ arcsState, a.id = d.id) → processArc arcsState db2 d now = (db2, [])) ∧
    ((∀ d ∈ discovered, ∃ a ∈ db.arcs, a.id = d.id) →
      handlePickDirectory db discovered now = (db, [])) := by
  have hskip : ∀ (arcsState : List ArcMetadata) (db2 : MetadataDB)
      (d : DiscoveredArcInput),
      (∃ a ∈ arcsState, a.id = d.id) → processArc arcsState db2 d now = (db2, []) := by
    intro arcsState db2 d hex
    obtain ⟨a, ha, haid⟩ := hex
    have hany : (arcsState.any fun x => x.id == d.id) = true :=
      List.any_eq_true.mpr ⟨a, ha, by simp [haid]⟩
    simp [processArc, hany]
  refine ⟨hskip, ?_⟩
  intro hall
  unfold handlePickDirectory
  suffices h : ∀ (l : List DiscoveredArcInput) (accDb : MetadataDB)
      (accE : List ScanEffect),
      (∀ d ∈ l, ∃ a ∈ db.arcs, a.id = d.id) →
      l.foldl (fun acc d =>
        let r := processArc db.arcs acc.1 d now
        (r.1, acc.2 ++ r.2)) (accDb, accE) = (accDb, accE) by
    exact h discovered db [] hall
  intro l
  induction l with
  | nil => intro accDb accE _; rfl
  | cons d rest ih =>
    intro accDb accE hall2
    simp only [List.foldl_cons,
      hskip db.arcs accDb d (hall2 d (List.mem_cons_self d rest)), List.append_nil]
    exact ih accDb accE fun d2 hd2 => hall2 d2 (List.mem_cons_of_mem d hd2)

/-- C10 witness: rescanning an already-known arc, even with a new video
file in its directory, changes nothing and performs no host
interaction. -/
theorem C10_rescan_skips_known_arcs_witness :
    (∃ a ∈ [(⟨"east-blue", "East Blue", "East Blue", none, none, 0, 0⟩ : ArcMetadata)],
      a.id = (⟨"east-blue", "East Blue", none, [⟨"99.mp4", none⟩]⟩ :
        DiscoveredArcInput).id) ∧
    processArc [⟨"east-blue", "East Blue", "East Blue", none, none, 0, 0⟩]
        ⟨[⟨"east-blue", "East Blue", "East Blue", none, none, 0, 0⟩], [], []⟩
        ⟨"east-blue", "East Blue", none, [⟨"99.mp4", none⟩]⟩ 5 =
      (⟨[⟨"east-blue", "East Blue", "East Blue", none, none, 0, 0⟩], [], []⟩, []) ∧
    handlePickDirectory
        ⟨[⟨"east-blue", "East Blue", "East Blue", none, none, 0, 0⟩], [], []⟩
        [⟨"east-blue", "East Blue", none, [⟨"99.mp4", none⟩]⟩] 5 =
      (⟨[⟨"east-blue", "East Blue", "East Blue", none, none, 0, 0⟩], [], []⟩, []) :=
  ⟨by decide,
    (C10_rescan_skips_known_arcs
        ⟨[⟨"east-blue", "East Blue", "East Blue", none, none, 0, 0⟩], [], []⟩
        [⟨"east-blue", "East Blue", none, [⟨"99.mp4", none⟩]⟩] 5).1
      [⟨"east-blue", "East Blue", "East Blue", none, none, 0, 0⟩]
      ⟨[⟨"east-blue", "East Blue", "East Blue", none, none, 0, 0⟩], [], []⟩
      ⟨"east-blue", "East Blue", none, [⟨"99.mp4", none⟩]⟩ (by decide),
    (C10_rescan_skips_known_arcs
        ⟨[⟨"east-blue", "East Blue", "East Blue", none, none, 0, 0⟩], [], []⟩
        [⟨"east-blue", "East Blue", none, [⟨"99.mp4", none⟩]⟩] 5).2 (by decide)⟩
